import Mathlib

/-!
Shallow embedding of `src/ai_engine/reasoning_chain/multimodal_state.py`:
the multimodal conversation-state model (`VisualContext`, `AudioContext`,
`ReasoningTurn`, `MultimodalReasoningState`, `MultimodalStateManager`).

Modelling conventions:
* Python `int` is embedded as `Int` (`turn_id`, `max_turns`, `visual_index`).
* Python lists are `List`; Python dict-shaped payloads that the code never
  inspects (`assistant_output`, `detected_objects` entries) are embedded as
  opaque association lists `List (String × String)`.
* `datetime` fields (`created_at`, `updated_at`, `timestamp`) are omitted:
  no verified claim mentions them, and the code only ever sets them to
  `datetime.now()` and serializes them.
* Python truthiness of `user_input.get("image")` / `.get("audio")`: a key
  that is absent or maps to the empty string is falsy, anything else truthy.
* Python list indexing `xs[i]` at places the code guards (or the invariants
  make in range) is embedded via `List.get?`/`getD`; the embedding is total
  where Python would raise only on states the code cannot reach.
-/

namespace MultimodalState

/-- Opaque JSON-dict payload the core never inspects. -/
abbrev Dict := List (String × String)

/-- Python dataclass `VisualContext`: per-image metadata.
`visual_embeddings`/`extracted_text` are carried but never written by the
state machine (`add_turn` leaves them at their defaults). -/
structure VisualContext where
  image_url : String
  image_description : String
  detected_objects : List Dict := []
  extracted_text : Option String := none
  referenced_in_turns : List Int := []
  deriving Repr, DecidableEq

/-- Python dataclass `AudioContext`: per-audio metadata. -/
structure AudioContext where
  audio_url : String
  transcription : String
  speaker_info : Option Dict := none
  emotion : Option String := none
  referenced_in_turns : List Int := []
  deriving Repr, DecidableEq

/-- The `cross_modal_alignment` dict: the code reads only the
`image_understanding` and `detected_objects` keys, with `.get(…, default)`
semantics, so it is embedded as a record with those two (optional) fields. -/
structure Alignment where
  image_understanding : Option String := none
  detected_objects : Option (List Dict) := none
  deriving Repr, DecidableEq

/-- The `user_input` dict: `{"text": …, "image": …, "audio": …,
"audio_transcription": …}`, every key optional. -/
structure UserInput where
  text : Option String := none
  image : Option String := none
  audio : Option String := none
  audio_transcription : Option String := none
  deriving Repr, DecidableEq

/-- Python truthiness of an optional string: `if user_input.get("image"):`. -/
def truthyStr : Option String → Bool
  | none => false
  | some s => s ≠ ""

/-- Python dataclass `ReasoningTurn` (timestamp omitted, see module comment). -/
structure ReasoningTurn where
  turn_id : Int
  user_input : UserInput
  assistant_output : Dict
  cross_modal_alignment : Option Alignment := none
  deriving Repr, DecidableEq

/-- Constructor `MultimodalReasoningState.__init__`: identity plus empty pools, empty
turn log and unset active indices (timestamps omitted). -/
structure MultimodalReasoningState where
  session_id : String
  user_id : String
  visual_contexts : List VisualContext := []
  audio_contexts : List AudioContext := []
  turns : List ReasoningTurn := []
  active_visual_index : Option Nat := none
  active_audio_index : Option Nat := none
  deriving Repr, DecidableEq

/-- Fresh state, as constructed by `MultimodalReasoningState(session_id, user_id)`. -/
def freshState (session_id user_id : String) : MultimodalReasoningState :=
  { session_id := session_id, user_id := user_id }

/-- Python `cross_modal_alignment.get("image_understanding", "") if cross_modal_alignment else ""`. -/
def alignmentUnderstanding : Option Alignment → String
  | none => ""
  | some a => a.image_understanding.getD ""

/-- Python `cross_modal_alignment.get("detected_objects", []) if cross_modal_alignment else []`. -/
def alignmentObjects : Option Alignment → List Dict
  | none => []
  | some a => a.detected_objects.getD []

namespace MultimodalReasoningState

/-- The `VisualContext(...)` constructed inside `add_turn` for a turn with
image input, after the `visual_ctx.referenced_in_turns.append(turn_id)`
line (so already referencing the new turn `len(turns) + 1`). -/
def newVisualContext (st : MultimodalReasoningState) (user_input : UserInput)
    (cross_modal_alignment : Option Alignment) : VisualContext :=
  { image_url := user_input.image.getD "",
    image_description := alignmentUnderstanding cross_modal_alignment,
    detected_objects := alignmentObjects cross_modal_alignment,
    referenced_in_turns := [(st.turns.length : Int) + 1] }

/-- The `AudioContext(...)` constructed inside `add_turn` for a turn with
audio input, already referencing the new turn `len(turns) + 1`. -/
def newAudioContext (st : MultimodalReasoningState) (user_input : UserInput) : AudioContext :=
  { audio_url := user_input.audio.getD "",
    transcription := user_input.audio_transcription.getD "",
    referenced_in_turns := [(st.turns.length : Int) + 1] }

/-- Method `add_turn(user_input, assistant_output, cross_modal_alignment)`:
computes `turn_id = len(turns) + 1`; if the input carries a (truthy) image
url, appends a fresh `VisualContext` referencing this turn and points
`active_visual_index` at it; symmetrically for audio; finally appends the
turn.  Returns the constructed turn together with the updated state. -/
def add_turn (st : MultimodalReasoningState) (user_input : UserInput)
    (assistant_output : Dict) (cross_modal_alignment : Option Alignment) :
    ReasoningTurn × MultimodalReasoningState :=
  let turn_id : Int := (st.turns.length : Int) + 1
  let turn : ReasoningTurn :=
    { turn_id := turn_id, user_input := user_input,
      assistant_output := assistant_output,
      cross_modal_alignment := cross_modal_alignment }
  let st1 :=
    if truthyStr user_input.image then
      { st with
          visual_contexts :=
            st.visual_contexts ++ [newVisualContext st user_input cross_modal_alignment],
          active_visual_index := some st.visual_contexts.length }
    else st
  let st2 :=
    if truthyStr user_input.audio then
      { st1 with
          audio_contexts := st1.audio_contexts ++ [newAudioContext st user_input],
          active_audio_index := some st1.audio_contexts.length }
    else st1
  (turn, { st2 with turns := st2.turns ++ [turn] })

/-- Whether `needle` occurs as a contiguous run inside `haystack`. -/
def listIsInfixOf (needle haystack : List Char) : Bool :=
  match haystack with
  | [] => needle.isEmpty
  | _ :: rest => needle.isPrefixOf haystack || listIsInfixOf needle rest

/-- Substring containment, Python `marker in text_query`. -/
def containsSub (text_query marker : String) : Bool :=
  listIsInfixOf marker.data text_query.data

/-- Method `resolve_visual_reference(text_query)`: pure lookup.  Empty pool →
`None`; ordinal-first marker (`"第一"`, `"最开始"`) → first asset; else a
proximal-demonstrative marker (`"那个"`, `"这个"`, `"刚才"`) with a set
`active_visual_index` → the active asset; otherwise the latest asset. -/
def resolve_visual_reference (st : MultimodalReasoningState) (text_query : String) :
    Option VisualContext :=
  if st.visual_contexts.isEmpty then none
  else if containsSub text_query "第一" || containsSub text_query "最开始" then
    st.visual_contexts.head?
  else if containsSub text_query "那个" || containsSub text_query "这个" ||
      containsSub text_query "刚才" then
    match st.active_visual_index with
    | some i => st.visual_contexts.get? i
    | none => st.visual_contexts.getLast?
  else
    st.visual_contexts.getLast?

/-- Replace the element at index `i` (Python `xs[i] = f(xs[i])` on a list);
out-of-range indices leave the list unchanged. -/
def listModify {α : Type} (xs : List α) (i : Nat) (f : α → α) : List α :=
  match xs, i with
  | [], _ => []
  | x :: rest, 0 => f x :: rest
  | x :: rest, n + 1 => x :: listModify rest n f

/-- Method `mark_visual_referenced(visual_index, turn_id)`: in range, appends
`turn_id` to that asset's `referenced_in_turns` and sets
`active_visual_index = visual_index`; out of range, leaves the state
untouched. -/
def mark_visual_referenced (st : MultimodalReasoningState)
    (visual_index turn_id : Int) : MultimodalReasoningState :=
  if 0 ≤ visual_index ∧ visual_index < (st.visual_contexts.length : Int) then
    { st with
        visual_contexts := listModify st.visual_contexts visual_index.toNat
          (fun vc => { vc with referenced_in_turns := vc.referenced_in_turns ++ [turn_id] }),
        active_visual_index := some visual_index.toNat }
  else st

/-- The context window returned by `get_context_window` (the serialization
`to_dict` of each record is elided: records are returned whole). -/
structure ContextWindow where
  recent_turns : List ReasoningTurn
  visual_contexts : List VisualContext
  audio_contexts : List AudioContext
  active_visual : Option VisualContext
  deriving Repr, DecidableEq

/-- Python suffix slice `xs[s:]` for a possibly negative start `s`:
`s ≥ 0` drops the first `s` elements (clamped); `s < 0` keeps the last
`min(-s, len)` elements. -/
def pySliceFrom {α : Type} (xs : List α) (s : Int) : List α :=
  if 0 ≤ s then xs.drop s.toNat
  else xs.drop (xs.length - (-s).toNat)

/-- The asset-collection loop of `get_context_window`: an asset is kept
exactly when some turn of the window appears in its `referenced_in_turns`.
Keeping pool order equals the code's `sorted(referenced_ids)` selection,
since `enumerate` yields indices in ascending order. -/
def windowAssets {α : Type} (refs : α → List Int)
    (recent_turns : List ReasoningTurn) (pool : List α) : List α :=
  pool.filter (fun a => recent_turns.any (fun t => (refs a).contains t.turn_id))

/-- Method `get_context_window(max_turns, include_visual_context)`:
`recent_turns = turns[-max_turns:]`, then the referenced visual assets
(emptied when `include_visual_context` is false), the referenced audio
assets, and the active visual record. -/
def get_context_window (st : MultimodalReasoningState)
    (max_turns : Int) (include_visual_context : Bool) : ContextWindow :=
  let recent_turns := pySliceFrom st.turns (-max_turns)
  { recent_turns := recent_turns,
    visual_contexts :=
      if include_visual_context then
        windowAssets VisualContext.referenced_in_turns recent_turns st.visual_contexts
      else [],
    audio_contexts :=
      windowAssets AudioContext.referenced_in_turns recent_turns st.audio_contexts,
    active_visual := st.active_visual_index.bind (st.visual_contexts.get? ·) }

end MultimodalReasoningState

/-- The `MultimodalStateManager`: the session-keyed store, embedded as an
association list from `session_id` to state (insertion order preserved,
like a Python dict). -/
structure MultimodalStateManager where
  states : List (String × MultimodalReasoningState) := []
  deriving Repr, DecidableEq

namespace MultimodalStateManager

/-- Association-list lookup (first entry with the given key wins; keys are
unique in a Python dict, so this is exact). -/
def statesLookup : List (String × MultimodalReasoningState) → String →
    Option MultimodalReasoningState
  | [], _ => none
  | (k, v) :: rest, sid => if k = sid then some v else statesLookup rest sid

/-- Dict lookup `self.states[session_id]` / membership `session_id in self.states`. -/
def find? (m : MultimodalStateManager) (session_id : String) :
    Option MultimodalReasoningState :=
  statesLookup m.states session_id

/-- Method `get_or_create_state(session_id, user_id)`: returns the stored state if
present, otherwise stores and returns a fresh one. -/
def get_or_create_state (m : MultimodalStateManager)
    (session_id user_id : String) :
    MultimodalReasoningState × MultimodalStateManager :=
  match m.find? session_id with
  | some st => (st, m)
  | none =>
    let st := freshState session_id user_id
    (st, { states := m.states ++ [(session_id, st)] })

end MultimodalStateManager

/-! ## Call sequences

Reachable states: a fresh state transformed by an arbitrary sequence of
method calls.  `resolve_visual_reference` and `get_context_window` assign
no attribute in the source, so as state transformers they are the
identity; they are still listed so a sequence of calls can mention them. -/

/-- One method call on a `MultimodalReasoningState`, with its arguments. -/
inductive StateOp where
  | addTurn (user_input : UserInput) (assistant_output : Dict)
      (cross_modal_alignment : Option Alignment)
  | markVisualReferenced (visual_index turn_id : Int)
  | resolveVisualReference (text_query : String)
  | getContextWindow (max_turns : Int) (include_visual_context : Bool)
  deriving Repr, DecidableEq

/-- Effect of one call on the state (read-only calls leave it unchanged). -/
def applyOp (st : MultimodalReasoningState) : StateOp → MultimodalReasoningState
  | .addTurn ui ao cma => (st.add_turn ui ao cma).2
  | .markVisualReferenced vi ti => st.mark_visual_referenced vi ti
  | .resolveVisualReference _ => st
  | .getContextWindow _ _ => st

@[simp] theorem applyOp_addTurn (st : MultimodalReasoningState) (ui : UserInput)
    (ao : Dict) (cma : Option Alignment) :
    applyOp st (.addTurn ui ao cma) = (st.add_turn ui ao cma).2 := rfl

@[simp] theorem applyOp_markVisualReferenced (st : MultimodalReasoningState)
    (vi ti : Int) :
    applyOp st (.markVisualReferenced vi ti) = st.mark_visual_referenced vi ti := rfl

@[simp] theorem applyOp_resolveVisualReference (st : MultimodalReasoningState)
    (q : String) : applyOp st (.resolveVisualReference q) = st := rfl

@[simp] theorem applyOp_getContextWindow (st : MultimodalReasoningState)
    (mt : Int) (b : Bool) : applyOp st (.getContextWindow mt b) = st := rfl

/-- Run a sequence of calls left to right. -/
def runOps (st : MultimodalReasoningState) (ops : List StateOp) :
    MultimodalReasoningState :=
  ops.foldl applyOp st

@[simp] theorem runOps_nil (st : MultimodalReasoningState) : runOps st [] = st := rfl

@[simp] theorem runOps_cons (st : MultimodalReasoningState) (op : StateOp)
    (ops : List StateOp) : runOps st (op :: ops) = runOps (applyOp st op) ops := rfl

/-! ## Basic lemmas about the operations -/

namespace MultimodalReasoningState

theorem add_turn_fst (st : MultimodalReasoningState) (ui : UserInput) (ao : Dict)
    (cma : Option Alignment) :
    (st.add_turn ui ao cma).1
      = { turn_id := (st.turns.length : Int) + 1, user_input := ui,
          assistant_output := ao, cross_modal_alignment := cma } := rfl

theorem add_turn_fst_turn_id (st : MultimodalReasoningState) (ui : UserInput)
    (ao : Dict) (cma : Option Alignment) :
    (st.add_turn ui ao cma).1.turn_id = (st.turns.length : Int) + 1 := rfl

theorem add_turn_turns (st : MultimodalReasoningState) (ui : UserInput) (ao : Dict)
    (cma : Option Alignment) :
    (st.add_turn ui ao cma).2.turns = st.turns ++ [(st.add_turn ui ao cma).1] := by
  unfold add_turn
  cases h1 : truthyStr ui.image <;> cases h2 : truthyStr ui.audio <;> simp [h1, h2]

theorem add_turn_visual_of_image (st : MultimodalReasoningState) (ui : UserInput)
    (ao : Dict) (cma : Option Alignment) (h : truthyStr ui.image = true) :
    (st.add_turn ui ao cma).2.visual_contexts
      = st.visual_contexts ++ [newVisualContext st ui cma] := by
  unfold add_turn
  cases h2 : truthyStr ui.audio <;> simp [h, h2]

theorem add_turn_visual_of_no_image (st : MultimodalReasoningState) (ui : UserInput)
    (ao : Dict) (cma : Option Alignment) (h : truthyStr ui.image = false) :
    (st.add_turn ui ao cma).2.visual_contexts = st.visual_contexts := by
  unfold add_turn
  cases h2 : truthyStr ui.audio <;> simp [h, h2]

theorem add_turn_active_of_image (st : MultimodalReasoningState) (ui : UserInput)
    (ao : Dict) (cma : Option Alignment) (h : truthyStr ui.image = true) :
    (st.add_turn ui ao cma).2.active_visual_index = some st.visual_contexts.length := by
  unfold add_turn
  cases h2 : truthyStr ui.audio <;> simp [h, h2]

theorem add_turn_active_of_no_image (st : MultimodalReasoningState) (ui : UserInput)
    (ao : Dict) (cma : Option Alignment) (h : truthyStr ui.image = false) :
    (st.add_turn ui ao cma).2.active_visual_index = st.active_visual_index := by
  unfold add_turn
  cases h2 : truthyStr ui.audio <;> simp [h, h2]

theorem add_turn_audio_of_audio (st : MultimodalReasoningState) (ui : UserInput)
    (ao : Dict) (cma : Option Alignment) (h : truthyStr ui.audio = true) :
    (st.add_turn ui ao cma).2.audio_contexts
      = st.audio_contexts ++ [newAudioContext st ui] := by
  unfold add_turn
  cases h1 : truthyStr ui.image <;> simp [h, h1]

theorem add_turn_audio_of_no_audio (st : MultimodalReasoningState) (ui : UserInput)
    (ao : Dict) (cma : Option Alignment) (h : truthyStr ui.audio = false) :
    (st.add_turn ui ao cma).2.audio_contexts = st.audio_contexts := by
  unfold add_turn
  cases h1 : truthyStr ui.image <;> simp [h, h1]

@[simp] theorem listModify_length {α : Type} (xs : List α) (i : Nat) (f : α → α) :
    (listModify xs i f).length = xs.length := by
  induction xs generalizing i with
  | nil => rfl
  | cons x rest ih =>
    cases i with
    | zero => rfl
    | succ n => simpa [listModify] using ih n

theorem listModify_get?_self {α : Type} (xs : List α) (i : Nat) (f : α → α) :
    (listModify xs i f).get? i = (xs.get? i).map f := by
  induction xs generalizing i with
  | nil => cases i <;> rfl
  | cons x rest ih =>
    cases i with
    | zero => rfl
    | succ n => simpa [listModify] using ih n

theorem listModify_get?_ne {α : Type} (xs : List α) (i j : Nat) (f : α → α)
    (h : j ≠ i) : (listModify xs i f).get? j = xs.get? j := by
  induction xs generalizing i j with
  | nil => cases j <;> rfl
  | cons x rest ih =>
    cases i with
    | zero =>
      cases j with
      | zero => exact absurd rfl h
      | succ m => rfl
    | succ n =>
      cases j with
      | zero => rfl
      | succ m =>
        simpa [listModify] using ih n m (fun hmn => h (by simpa using hmn))

theorem listModify_mem {α : Type} (xs : List α) (i : Nat) (f : α → α) {y : α}
    (hy : y ∈ listModify xs i f) : y ∈ xs ∨ ∃ x ∈ xs, y = f x := by
  induction xs generalizing i with
  | nil => simp [listModify] at hy
  | cons x rest ih =>
    cases i with
    | zero =>
      rcases List.mem_cons.mp hy with h | h
      · exact Or.inr ⟨x, List.mem_cons_self _ _, h⟩
      · exact Or.inl (List.mem_cons_of_mem _ h)
    | succ n =>
      rcases List.mem_cons.mp hy with h | h
      · exact Or.inl (h ▸ List.mem_cons_self _ _)
      · rcases ih n h with h | ⟨z, hz, hyz⟩
        · exact Or.inl (List.mem_cons_of_mem _ h)
        · exact Or.inr ⟨z, List.mem_cons_of_mem _ hz, hyz⟩

theorem mark_in_range (st : MultimodalReasoningState) (vi ti : Int)
    (h0 : 0 ≤ vi) (h1 : vi < (st.visual_contexts.length : Int)) :
    st.mark_visual_referenced vi ti
      = { st with
            visual_contexts := listModify st.visual_contexts vi.toNat
              (fun vc => { vc with referenced_in_turns := vc.referenced_in_turns ++ [ti] }),
            active_visual_index := some vi.toNat } := by
  unfold mark_visual_referenced
  simp [h0, h1]

theorem mark_out_of_range (st : MultimodalReasoningState) (vi ti : Int)
    (h : ¬ (0 ≤ vi ∧ vi < (st.visual_contexts.length : Int))) :
    st.mark_visual_referenced vi ti = st := by
  unfold mark_visual_referenced
  simp [h]

theorem mark_turns (st : MultimodalReasoningState) (vi ti : Int) :
    (st.mark_visual_referenced vi ti).turns = st.turns := by
  unfold mark_visual_referenced
  split <;> rfl

theorem mark_audio (st : MultimodalReasoningState) (vi ti : Int) :
    (st.mark_visual_referenced vi ti).audio_contexts = st.audio_contexts := by
  unfold mark_visual_referenced
  split <;> rfl

theorem mark_visual_length (st : MultimodalReasoningState) (vi ti : Int) :
    (st.mark_visual_referenced vi ti).visual_contexts.length
      = st.visual_contexts.length := by
  unfold mark_visual_referenced
  split <;> simp

theorem mark_get?_self (st : MultimodalReasoningState) (vi ti : Int)
    (h0 : 0 ≤ vi) (h1 : vi < (st.visual_contexts.length : Int)) :
    (st.mark_visual_referenced vi ti).visual_contexts.get? vi.toNat
      = (st.visual_contexts.get? vi.toNat).map
          (fun vc => { vc with referenced_in_turns := vc.referenced_in_turns ++ [ti] }) := by
  rw [mark_in_range st vi ti h0 h1]
  exact listModify_get?_self st.visual_contexts vi.toNat _

theorem mark_get?_ne (st : MultimodalReasoningState) (vi ti : Int) (j : Nat)
    (hj : j ≠ vi.toNat) (h0 : 0 ≤ vi) (h1 : vi < (st.visual_contexts.length : Int)) :
    (st.mark_visual_referenced vi ti).visual_contexts.get? j
      = st.visual_contexts.get? j := by
  rw [mark_in_range st vi ti h0 h1]
  exact listModify_get?_ne st.visual_contexts vi.toNat j _ hj

end MultimodalReasoningState

/-! ## Invariants of reachable states -/

open MultimodalReasoningState

/-- The turn log carries exactly the ids `1, 2, …, len(turns)` in order. -/
def turnIdsDense (st : MultimodalReasoningState) : Prop :=
  st.turns.map (fun t => t.turn_id)
    = (List.range st.turns.length).map (fun k : Nat => (k : Int) + 1)

theorem turnIdsDense_fresh (sid uid : String) : turnIdsDense (freshState sid uid) := rfl

theorem turnIdsDense_applyOp (st : MultimodalReasoningState) (op : StateOp)
    (h : turnIdsDense st) : turnIdsDense (applyOp st op) := by
  cases op with
  | addTurn ui ao cma =>
    unfold turnIdsDense at h ⊢
    rw [applyOp_addTurn, add_turn_turns]
    simp only [List.map_append, List.length_append, List.map_cons, List.map_nil,
      List.length_cons, List.length_nil, Nat.zero_add, List.range_succ, h,
      add_turn_fst_turn_id]
  | markVisualReferenced vi ti =>
    unfold turnIdsDense at h ⊢
    rw [applyOp_markVisualReferenced, mark_turns]
    exact h
  | resolveVisualReference q => exact h
  | getContextWindow mt b => exact h

theorem turnIdsDense_runOps (st : MultimodalReasoningState) (ops : List StateOp)
    (h : turnIdsDense st) : turnIdsDense (runOps st ops) := by
  induction ops generalizing st with
  | nil => exact h
  | cons op ops ih => exact ih _ (turnIdsDense_applyOp st op h)

/-- Invariant: `active_visual_index`, when set, is a valid index into `visual_contexts`. -/
def activeVisualOk (st : MultimodalReasoningState) : Prop :=
  ∀ i, st.active_visual_index = some i → i < st.visual_contexts.length

theorem activeVisualOk_fresh (sid uid : String) : activeVisualOk (freshState sid uid) := by
  intro i h
  simp [freshState] at h

theorem activeVisualOk_applyOp (st : MultimodalReasoningState) (op : StateOp)
    (h : activeVisualOk st) : activeVisualOk (applyOp st op) := by
  cases op with
  | addTurn ui ao cma =>
    intro i hi
    rw [applyOp_addTurn] at hi ⊢
    cases himg : truthyStr ui.image with
    | true =>
      rw [add_turn_active_of_image st ui ao cma himg] at hi
      rw [add_turn_visual_of_image st ui ao cma himg]
      cases hi
      simp
    | false =>
      rw [add_turn_active_of_no_image st ui ao cma himg] at hi
      rw [add_turn_visual_of_no_image st ui ao cma himg]
      exact h i hi
  | markVisualReferenced vi ti =>
    intro i hi
    rw [applyOp_markVisualReferenced] at hi ⊢
    by_cases hr : 0 ≤ vi ∧ vi < (st.visual_contexts.length : Int)
    · rw [mark_in_range st vi ti hr.1 hr.2] at hi
      rw [mark_visual_length]
      cases hi
      omega
    · rw [mark_out_of_range st vi ti hr] at hi
      rw [mark_out_of_range st vi ti hr]
      exact h i hi
  | resolveVisualReference q => exact h
  | getContextWindow mt b => exact h

theorem activeVisualOk_runOps (st : MultimodalReasoningState) (ops : List StateOp)
    (h : activeVisualOk st) : activeVisualOk (runOps st ops) := by
  induction ops generalizing st with
  | nil => exact h
  | cons op ops ih => exact ih _ (activeVisualOk_applyOp st op h)

/-! ## Claims -/

/-- C1: turn ids are monotonic and dense — for every sequence of calls
starting from a fresh state, the ids in the turn log are exactly
`1, 2, 3, …, len(turns)` in order (no gaps, no repeats), and the id a
further `add_turn` would assign equals `len(turns) + 1` at the moment of
append. -/
theorem claim_C1_turn_ids_monotonic_dense (sid uid : String) (ops : List StateOp) :
    (runOps (freshState sid uid) ops).turns.map (fun t => t.turn_id)
      = (List.range (runOps (freshState sid uid) ops).turns.length).map
          (fun k : Nat => (k : Int) + 1)
    ∧ ∀ (ui : UserInput) (ao : Dict) (cma : Option Alignment),
        ((runOps (freshState sid uid) ops).add_turn ui ao cma).1.turn_id
          = ((runOps (freshState sid uid) ops).turns.length : Int) + 1 := by
  refine ⟨turnIdsDense_runOps _ ops (turnIdsDense_fresh sid uid), ?_⟩
  intro ui ao cma
  rw [add_turn_fst]

/-- C7: in every state reachable from a fresh state by `add_turn` and
`mark_visual_referenced` calls (read-only calls included), a set
`active_visual_index` is a valid index into `visual_contexts`. -/
theorem claim_C7_active_index_always_valid (sid uid : String) (ops : List StateOp)
    (i : Nat) (h : (runOps (freshState sid uid) ops).active_visual_index = some i) :
    i < (runOps (freshState sid uid) ops).visual_contexts.length :=
  activeVisualOk_runOps _ ops (activeVisualOk_fresh sid uid) i h

/-- Witness for C7: after one image turn the active index is `0` and the
pool has one element. -/
theorem claim_C7_witness :
    (runOps (freshState "s" "u")
        [StateOp.addTurn { image := some "imgA" } [] none]).active_visual_index
      = some 0
    ∧ 0 < (runOps (freshState "s" "u")
        [StateOp.addTurn { image := some "imgA" } [] none]).visual_contexts.length :=
  ⟨by decide,
   claim_C7_active_index_always_valid "s" "u"
     [StateOp.addTurn { image := some "imgA" } [] none] 0 (by decide)⟩

/-- C6: active-pointer freshness — any `add_turn` whose `user_input`
carries a (truthy) image url appends one new `VisualContext` at the end of
`visual_contexts` (prior images untouched: no merge, no replacement) and
leaves `active_visual_index` pointing at it,
`len(visual_contexts) - 1`. -/
theorem claim_C6_active_pointer_freshness (st : MultimodalReasoningState)
    (ui : UserInput) (ao : Dict) (cma : Option Alignment)
    (h : truthyStr ui.image = true) :
    (st.add_turn ui ao cma).2.visual_contexts.length
        = st.visual_contexts.length + 1
    ∧ (st.add_turn ui ao cma).2.visual_contexts.take st.visual_contexts.length
        = st.visual_contexts
    ∧ (st.add_turn ui ao cma).2.visual_contexts.getLast?
        = some (newVisualContext st ui cma)
    ∧ (st.add_turn ui ao cma).2.active_visual_index
        = some ((st.add_turn ui ao cma).2.visual_contexts.length - 1) := by
  rw [add_turn_visual_of_image st ui ao cma h, add_turn_active_of_image st ui ao cma h]
  refine ⟨by simp, List.take_left _ _, by simp, by simp⟩

/-- Witness for C6: one image turn on a fresh state. -/
theorem claim_C6_witness :
    truthyStr ({ image := some "imgA" } : UserInput).image = true
    ∧ ((freshState "s" "u").add_turn { image := some "imgA" } [] none).2.active_visual_index
        = some (((freshState "s" "u").add_turn
            { image := some "imgA" } [] none).2.visual_contexts.length - 1) :=
  ⟨by decide,
   (claim_C6_active_pointer_freshness (freshState "s" "u")
     { image := some "imgA" } [] none (by decide)).2.2.2⟩

/-- C8: `mark_visual_referenced` with an out-of-range `visual_index` is a
silent no-op leaving the whole state unchanged; with an in-range index it
appends `turn_id` to exactly that asset's `referenced_in_turns`, leaves
every other asset and every other field unchanged, and sets
`active_visual_index = visual_index`. -/
theorem claim_C8_mark_referenced_range (st : MultimodalReasoningState)
    (vi ti : Int) :
    (¬ (0 ≤ vi ∧ vi < (st.visual_contexts.length : Int)) →
        st.mark_visual_referenced vi ti = st)
    ∧ (0 ≤ vi → vi < (st.visual_contexts.length : Int) →
        (st.mark_visual_referenced vi ti).active_visual_index = some vi.toNat
        ∧ ((st.mark_visual_referenced vi ti).visual_contexts.get? vi.toNat).map
              (fun vc => vc.referenced_in_turns)
            = (st.visual_contexts.get? vi.toNat).map
              (fun vc => vc.referenced_in_turns ++ [ti])
        ∧ (∀ j : Nat, j ≠ vi.toNat →
            (st.mark_visual_referenced vi ti).visual_contexts.get? j
              = st.visual_contexts.get? j)
        ∧ (st.mark_visual_referenced vi ti).turns = st.turns
        ∧ (st.mark_visual_referenced vi ti).audio_contexts = st.audio_contexts
        ∧ (st.mark_visual_referenced vi ti).session_id = st.session_id
        ∧ (st.mark_visual_referenced vi ti).user_id = st.user_id
        ∧ (st.mark_visual_referenced vi ti).active_audio_index
            = st.active_audio_index) := by
  constructor
  · intro h
    exact mark_out_of_range st vi ti h
  · intro h0 h1
    refine ⟨?_, ?_, ?_, mark_turns st vi ti, mark_audio st vi ti, ?_, ?_, ?_⟩
    · rw [mark_in_range st vi ti h0 h1]
    · rw [mark_get?_self st vi ti h0 h1]
      cases st.visual_contexts.get? vi.toNat <;> rfl
    · intro j hj
      exact mark_get?_ne st vi ti j hj h0 h1
    · rw [mark_in_range st vi ti h0 h1]
    · rw [mark_in_range st vi ti h0 h1]
    · rw [mark_in_range st vi ti h0 h1]

/-- Witness for C8: a state with one image turn; index `0` is in range,
index `5` is out of range and leaves the state unchanged. -/
theorem claim_C8_witness :
    (¬ ((0:Int) ≤ 5
        ∧ (5:Int) < ((runOps (freshState "s" "u")
            [StateOp.addTurn { image := some "imgA" } [] none]).visual_contexts.length : Int)) →
      (runOps (freshState "s" "u")
          [StateOp.addTurn { image := some "imgA" } [] none]).mark_visual_referenced 5 1
        = runOps (freshState "s" "u") [StateOp.addTurn { image := some "imgA" } [] none])
    ∧ ((runOps (freshState "s" "u")
          [StateOp.addTurn { image := some "imgA" } [] none]).mark_visual_referenced 0 1).active_visual_index
        = some ((0:Int)).toNat
    ∧ (0:Int) ≤ 0
    ∧ (0:Int) < ((runOps (freshState "s" "u")
        [StateOp.addTurn { image := some "imgA" } [] none]).visual_contexts.length : Int) :=
  ⟨(claim_C8_mark_referenced_range _ 5 1).1,
   ((claim_C8_mark_referenced_range _ 0 1).2 (by decide) (by decide)).1,
   by decide, by decide⟩

/-- C10: `mark_visual_referenced` is not idempotent — two identical
in-range calls append the `turn_id` twice, so `referenced_in_turns` is an
ordered list that keeps duplicates, not a duplicate-free set: afterwards the
asset's reference list is the original one with `[ti, ti]` appended, and
`ti` occurs at least twice in it. -/
theorem claim_C10_mark_not_idempotent (st : MultimodalReasoningState)
    (vi ti : Int) (h0 : 0 ≤ vi) (h1 : vi < (st.visual_contexts.length : Int)) :
    (((st.mark_visual_referenced vi ti).mark_visual_referenced vi ti).visual_contexts.get?
          vi.toNat).map (fun vc => vc.referenced_in_turns)
      = (st.visual_contexts.get? vi.toNat).map
          (fun vc => vc.referenced_in_turns ++ [ti, ti])
    ∧ ∀ l : List Int,
        (((st.mark_visual_referenced vi ti).mark_visual_referenced vi ti).visual_contexts.get?
            vi.toNat).map (fun vc => vc.referenced_in_turns) = some l →
        2 ≤ l.count ti := by
  have h1m : vi < ((st.mark_visual_referenced vi ti).visual_contexts.length : Int) := by
    rw [mark_visual_length]
    exact h1
  have hget :
      (((st.mark_visual_referenced vi ti).mark_visual_referenced vi ti).visual_contexts.get?
          vi.toNat).map (fun vc => vc.referenced_in_turns)
        = (st.visual_contexts.get? vi.toNat).map
            (fun vc => vc.referenced_in_turns ++ [ti, ti]) := by
    rw [mark_get?_self (st.mark_visual_referenced vi ti) vi ti h0 h1m,
      mark_get?_self st vi ti h0 h1]
    cases st.visual_contexts.get? vi.toNat <;> simp
  refine ⟨hget, ?_⟩
  intro l hl
  rw [hget] at hl
  cases hvc : st.visual_contexts.get? vi.toNat with
  | none => rw [hvc] at hl; simp at hl
  | some vc =>
    rw [hvc] at hl
    simp at hl
    subst hl
    simp [List.count_append, List.count_cons]

/-- Witness for C10: double-marking asset `0` of a one-image state with
turn id `7` leaves `[1, 7, 7]` in its reference list. -/
theorem claim_C10_witness :
    ((((runOps (freshState "s" "u")
          [StateOp.addTurn { image := some "imgA" } [] none]).mark_visual_referenced 0 7).mark_visual_referenced
            0 7).visual_contexts.get? (0:Int).toNat).map (fun vc => vc.referenced_in_turns)
      = ((runOps (freshState "s" "u")
          [StateOp.addTurn { image := some "imgA" } [] none]).visual_contexts.get?
            (0:Int).toNat).map (fun vc => vc.referenced_in_turns ++ [7, 7])
    ∧ (0:Int) ≤ 0
    ∧ (0:Int) < ((runOps (freshState "s" "u")
        [StateOp.addTurn { image := some "imgA" } [] none]).visual_contexts.length : Int) :=
  ⟨(claim_C10_mark_not_idempotent _ 0 7 (by decide) (by decide)).1,
   by decide, by decide⟩

/-! ## Context window (C2, C3) -/

/-- A state holding exactly one (text-only) turn. -/
def oneTurnState : MultimodalReasoningState :=
  ((freshState "s" "u").add_turn { text := some "hello" } [] none).2

/-- State `oneTurnState` after a second text-only turn: two turns. -/
def twoTurnState : MultimodalReasoningState :=
  (oneTurnState.add_turn { text := some "again" } [] none).2

/-- C2 counterexample: the claim says `max_turns = 0` yields an empty
`recent_turns`, but Python's `turns[-0:]` is `turns[0:]`, the whole list:
on a one-turn state the window for `max_turns = 0` is not empty. -/
theorem claim_C2_counterexample :
    (oneTurnState.get_context_window 0 true).recent_turns ≠ [] := by decide

/-- C2 (amended): `recent_turns` is always a suffix of `turns` (chronological
order preserved).  For `max_turns > 0` it is the last `max_turns` turns —
all of them when `max_turns` exceeds `len(turns)`.  For `max_turns <= 0`
however the slice `turns[-max_turns:]` drops the first `-max_turns` turns;
in particular `max_turns = 0` returns ALL turns, not an empty list. -/
theorem claim_C2_amended_window_slice (st : MultimodalReasoningState)
    (max_turns : Int) (b : Bool) :
    ((st.get_context_window max_turns b).recent_turns <:+ st.turns)
    ∧ (0 < max_turns →
        (st.get_context_window max_turns b).recent_turns
            = st.turns.drop (st.turns.length - max_turns.toNat)
        ∧ ((st.get_context_window max_turns b).recent_turns).length
            = min max_turns.toNat st.turns.length)
    ∧ (max_turns ≤ 0 →
        (st.get_context_window max_turns b).recent_turns
          = st.turns.drop (-max_turns).toNat) := by
  have hrt : (st.get_context_window max_turns b).recent_turns
      = pySliceFrom st.turns (-max_turns) := rfl
  refine ⟨?_, ?_, ?_⟩
  · rw [hrt]
    unfold pySliceFrom
    split <;> exact List.drop_suffix _ _
  · intro hpos
    have heq : (st.get_context_window max_turns b).recent_turns
        = st.turns.drop (st.turns.length - max_turns.toNat) := by
      rw [hrt]
      unfold pySliceFrom
      rw [if_neg (by omega), neg_neg]
    refine ⟨heq, ?_⟩
    rw [heq, List.length_drop]
    omega
  · intro hnonpos
    rw [hrt]
    unfold pySliceFrom
    rw [if_pos (by omega)]

/-- Witness for C2 (amended): on a two-turn state, `max_turns = 1` keeps the
last turn and `max_turns = 0` keeps everything. -/
theorem claim_C2_witness :
    ((twoTurnState.get_context_window 1 true).recent_turns
        = twoTurnState.turns.drop (twoTurnState.turns.length - (1 : Int).toNat))
    ∧ ((twoTurnState.get_context_window 0 true).recent_turns
        = twoTurnState.turns.drop (-(0 : Int)).toNat) :=
  ⟨((claim_C2_amended_window_slice twoTurnState 1 true).2.1 (by decide)).1,
   (claim_C2_amended_window_slice twoTurnState 0 true).2.2 (by decide)⟩

/-- Containment for the asset LISTS of a window: every asset in
`visual_contexts` / `audio_contexts` is referenced by a turn of the
window. -/
def windowContainment (w : MultimodalReasoningState.ContextWindow) : Prop :=
  (∀ vc ∈ w.visual_contexts,
      ∃ t ∈ w.recent_turns, vc.referenced_in_turns.contains t.turn_id = true)
  ∧ (∀ ac ∈ w.audio_contexts,
      ∃ t ∈ w.recent_turns, ac.referenced_in_turns.contains t.turn_id = true)

/-- Containment for EVERY asset included in the window's output, the
`active_visual` record included — this is claim C3 as stated. -/
def windowContainmentAll (w : MultimodalReasoningState.ContextWindow) : Prop :=
  (∀ vc ∈ w.active_visual.toList ++ w.visual_contexts,
      ∃ t ∈ w.recent_turns, vc.referenced_in_turns.contains t.turn_id = true)
  ∧ (∀ ac ∈ w.audio_contexts,
      ∃ t ∈ w.recent_turns, ac.referenced_in_turns.contains t.turn_id = true)

/-- One image turn followed by a text-only follow-up turn. -/
def imageThenTextState : MultimodalReasoningState :=
  (((freshState "s" "u").add_turn { image := some "imgA" } [] none).2.add_turn
      { text := some "follow-up" } [] none).2

/-- C3 counterexample: on `imageThenTextState` with `max_turns = 1`, the
window's `recent_turns` is only the second (text) turn, yet the result
still carries the image — as `active_visual` — although no turn inside the
window references it.  So not every asset included in the result is
referenced by a turn of the window. -/
theorem claim_C3_counterexample :
    ¬ windowContainmentAll (imageThenTextState.get_context_window 1 true) := by
  unfold windowContainmentAll
  decide

theorem windowAssets_mem {α : Type} (refs : α → List Int)
    (recent_turns : List ReasoningTurn) (pool : List α) (a : α)
    (ha : a ∈ MultimodalReasoningState.windowAssets refs recent_turns pool) :
    ∃ t ∈ recent_turns, (refs a).contains t.turn_id = true := by
  unfold MultimodalReasoningState.windowAssets at ha
  have h := List.mem_filter.mp ha
  simpa using List.any_eq_true.mp h.2

/-- C3 (amended): the containment guarantee holds for the two asset lists
of the window — every asset in the returned `visual_contexts` and
`audio_contexts` is referenced by at least one turn of `recent_turns`; the
`active_visual` record, however, can carry an asset referenced by no turn
of the window (see the counterexample). -/
theorem claim_C3_amended_window_containment (st : MultimodalReasoningState)
    (max_turns : Int) (b : Bool) :
    windowContainment (st.get_context_window max_turns b) := by
  constructor
  · intro vc hvc
    have hv : (st.get_context_window max_turns b).visual_contexts
        = if b then
            MultimodalReasoningState.windowAssets VisualContext.referenced_in_turns
              ((st.get_context_window max_turns b).recent_turns) st.visual_contexts
          else [] := rfl
    rw [hv] at hvc
    cases b with
    | false => simp at hvc
    | true => exact windowAssets_mem _ _ _ vc (by simpa using hvc)
  · intro ac hac
    have ha : (st.get_context_window max_turns b).audio_contexts
        = MultimodalReasoningState.windowAssets AudioContext.referenced_in_turns
            ((st.get_context_window max_turns b).recent_turns) st.audio_contexts := rfl
    rw [ha] at hac
    exact windowAssets_mem _ _ _ ac hac

/-- Witness for C3 (amended): list containment evaluated on a concrete
two-turn window. -/
theorem claim_C3_witness :
    windowContainment (imageThenTextState.get_context_window 2 true) :=
  claim_C3_amended_window_containment imageThenTextState 2 true

/-! ## Reference resolution (C5) -/

/-- Three image uploads (`imgA`, `imgB`, `imgC` at indices 0, 1, 2). -/
def threeImageState : MultimodalReasoningState :=
  ((((freshState "s" "u").add_turn { image := some "imgA" } [] none).2.add_turn
      { image := some "imgB" } [] none).2.add_turn
      { image := some "imgC" } [] none).2

/-- State `threeImageState` with `active_visual_index = 1` (set by marking asset 1
as referenced in turn 3). -/
def threeImageActive1 : MultimodalReasoningState :=
  threeImageState.mark_visual_referenced 1 3

/-- C5 counterexample: with three images and `active_visual_index == 1`,
the claim predicts `"the first one" ↦ index 0` and `"that image" ↦ index 1`;
but the code's markers are the source-locale (Chinese) substrings
`"第一"/"最开始"` and `"那个"/"这个"/"刚才"`, which these English queries
do not contain, so both fall through to the default rule and resolve to
the LATEST asset `imgC` (index 2). -/
theorem claim_C5_counterexample :
    threeImageActive1.active_visual_index = some 1
    ∧ (threeImageActive1.resolve_visual_reference "the first one").map
        (fun vc => vc.image_url) = some "imgC"
    ∧ (threeImageActive1.visual_contexts.get? 0).map
        (fun vc => vc.image_url) = some "imgA"
    ∧ (threeImageActive1.resolve_visual_reference "that image").map
        (fun vc => vc.image_url) = some "imgC"
    ∧ (threeImageActive1.visual_contexts.get? 1).map
        (fun vc => vc.image_url) = some "imgB" := by
  refine ⟨by decide, by decide, by decide, by decide, by decide⟩

/-- C5 (amended): the precedence is as claimed — empty pool first, then
ordinal-first marker, then proximal demonstrative with a set active index,
then most-recent default — but the markers are the source-locale substrings
`"第一"/"最开始"` (ordinal-first) and `"那个"/"这个"/"刚才"` (proximal
demonstrative); with three images and `active_visual_index == 1`, the
query `"第一张图"` resolves to index 0, `"那个图"` to index 1, and
`"anything else"` (no marker) to index 2. -/
theorem claim_C5_amended_precedence (st : MultimodalReasoningState) (q : String) :
    (st.visual_contexts = [] → st.resolve_visual_reference q = none)
    ∧ (st.visual_contexts ≠ [] →
        (containsSub q "第一" || containsSub q "最开始") = true →
        st.resolve_visual_reference q = st.visual_contexts.head?)
    ∧ (st.visual_contexts ≠ [] →
        (containsSub q "第一" || containsSub q "最开始") = false →
        (containsSub q "那个" || containsSub q "这个" || containsSub q "刚才") = true →
        (∀ i, st.active_visual_index = some i →
            st.resolve_visual_reference q = st.visual_contexts.get? i)
        ∧ (st.active_visual_index = none →
            st.resolve_visual_reference q = st.visual_contexts.getLast?))
    ∧ (st.visual_contexts ≠ [] →
        (containsSub q "第一" || containsSub q "最开始") = false →
        (containsSub q "那个" || containsSub q "这个" || containsSub q "刚才") = false →
        st.resolve_visual_reference q = st.visual_contexts.getLast?)
    ∧ ((threeImageActive1.resolve_visual_reference "第一张图").map
          (fun vc => vc.image_url) = some "imgA"
        ∧ (threeImageActive1.resolve_visual_reference "那个图").map
          (fun vc => vc.image_url) = some "imgB"
        ∧ (threeImageActive1.resolve_visual_reference "anything else").map
          (fun vc => vc.image_url) = some "imgC") := by
  refine ⟨?_, ?_, ?_, ?_, by decide, by decide, by decide⟩
  · intro h
    simp [resolve_visual_reference, h]
  · intro hne hord
    cases hvc : st.visual_contexts with
    | nil => exact absurd hvc hne
    | cons x xs =>
      rw [← hvc]
      simp [resolve_visual_reference, hord, hvc]
  · intro hne hord hprox
    cases hvc : st.visual_contexts with
    | nil => exact absurd hvc hne
    | cons x xs =>
      constructor
      · intro i hi
        rw [← hvc]
        simp [resolve_visual_reference, hord, hprox, hvc, hi]
      · intro hi
        rw [← hvc]
        simp [resolve_visual_reference, hord, hprox, hvc, hi]
  · intro hne hord hprox
    cases hvc : st.visual_contexts with
    | nil => exact absurd hvc hne
    | cons x xs =>
      rw [← hvc]
      simp [resolve_visual_reference, hord, hprox, hvc]

/-- Witness for C5 (amended): the proximal rule applied to the concrete
three-image state with active index 1. -/
theorem claim_C5_witness :
    threeImageActive1.resolve_visual_reference "那个图"
      = threeImageActive1.visual_contexts.get? 1 :=
  ((claim_C5_amended_precedence threeImageActive1 "那个图").2.2.1
    (by decide) (by decide) (by decide)).1 1 (by decide)

/-! ## Reference-id invariant (C4) -/

/-- Every turn id recorded in any asset's `referenced_in_turns` names a
turn that exists in `turns` (ids are 1-based and dense, so existence is
`1 ≤ id ≤ len(turns)`). -/
def refsWellFormed (st : MultimodalReasoningState) : Prop :=
  (∀ vc ∈ st.visual_contexts, ∀ t ∈ vc.referenced_in_turns,
      1 ≤ t ∧ t ≤ (st.turns.length : Int))
  ∧ (∀ ac ∈ st.audio_contexts, ∀ t ∈ ac.referenced_in_turns,
      1 ≤ t ∧ t ≤ (st.turns.length : Int))

/-- Method `mark_visual_referenced(visual_index, turn_id)` performs no validation
of `turn_id`; this records, per call, that the caller passed an existing
turn id. -/
def opMarkOk (st : MultimodalReasoningState) : StateOp → Bool
  | .markVisualReferenced _ turn_id =>
      decide (1 ≤ turn_id) && decide (turn_id ≤ (st.turns.length : Int))
  | _ => true

/-- Every `mark_visual_referenced` call of the sequence passes a turn id
that exists at the moment of the call. -/
def validMarks : MultimodalReasoningState → List StateOp → Bool
  | _, [] => true
  | st, op :: ops => opMarkOk st op && validMarks (applyOp st op) ops

/-- An image turn, then `mark_visual_referenced(0, 42)` on a state with a
single turn: the code appends `42` unchecked. -/
def badMarkOps : List StateOp :=
  [StateOp.addTurn { image := some "imgA" } [] none,
   StateOp.markVisualReferenced 0 42]

/-- C4 counterexample: the claim quantifies over ALL call sequences, but
`mark_visual_referenced` never validates `turn_id`, so marking asset 0 as
referenced in turn 42 on a one-turn state stores a dangling turn id. -/
theorem claim_C4_counterexample :
    ¬ refsWellFormed (runOps (freshState "s" "u") badMarkOps) := by
  unfold refsWellFormed
  decide

theorem refsWellFormed_fresh (sid uid : String) :
    refsWellFormed (freshState sid uid) := by
  constructor <;> intro x hx <;> simp [freshState] at hx

theorem refsWellFormed_applyOp (st : MultimodalReasoningState) (op : StateOp)
    (hop : opMarkOk st op = true) (h : refsWellFormed st) :
    refsWellFormed (applyOp st op) := by
  cases op with
  | addTurn ui ao cma =>
    rw [applyOp_addTurn]
    have hlen : (st.add_turn ui ao cma).2.turns.length = st.turns.length + 1 := by
      rw [add_turn_turns]
      simp
    constructor
    · intro vc hvc t ht
      rw [hlen]
      cases himg : truthyStr ui.image with
      | true =>
        rw [add_turn_visual_of_image st ui ao cma himg] at hvc
        rcases List.mem_append.mp hvc with hin | hnew
        · have := h.1 vc hin t ht
          push_cast
          omega
        · have hvceq : vc = newVisualContext st ui cma := by simpa using hnew
          subst hvceq
          have : t = (st.turns.length : Int) + 1 := by
            simpa [newVisualContext] using ht
          subst this
          push_cast
          omega
      | false =>
        rw [add_turn_visual_of_no_image st ui ao cma himg] at hvc
        have := h.1 vc hvc t ht
        push_cast
        omega
    · intro ac hac t ht
      rw [hlen]
      cases haud : truthyStr ui.audio with
      | true =>
        rw [add_turn_audio_of_audio st ui ao cma haud] at hac
        rcases List.mem_append.mp hac with hin | hnew
        · have := h.2 ac hin t ht
          push_cast
          omega
        · have haceq : ac = newAudioContext st ui := by simpa using hnew
          subst haceq
          have : t = (st.turns.length : Int) + 1 := by
            simpa [newAudioContext] using ht
          subst this
          push_cast
          omega
      | false =>
        rw [add_turn_audio_of_no_audio st ui ao cma haud] at hac
        have := h.2 ac hac t ht
        push_cast
        omega
  | markVisualReferenced vi ti =>
    rw [applyOp_markVisualReferenced]
    have hti : 1 ≤ ti ∧ ti ≤ (st.turns.length : Int) := by
      have := hop
      unfold opMarkOk at this
      simpa using this
    constructor
    · intro vc hvc t ht
      rw [mark_turns]
      by_cases hr : 0 ≤ vi ∧ vi < (st.visual_contexts.length : Int)
      · rw [mark_in_range st vi ti hr.1 hr.2] at hvc
        rcases listModify_mem _ _ _ hvc with hin | ⟨x, hx, hEq⟩
        · exact h.1 vc hin t ht
        · subst hEq
          rcases List.mem_append.mp ht with htold | htnew
          · exact h.1 x hx t htold
          · have : t = ti := by simpa using htnew
            subst this
            exact hti
      · rw [mark_out_of_range st vi ti hr] at hvc
        exact h.1 vc hvc t ht
    · intro ac hac t ht
      rw [mark_turns]
      rw [mark_audio] at hac
      exact h.2 ac hac t ht
  | resolveVisualReference q => exact h
  | getContextWindow mt b => exact h

theorem refsWellFormed_runOps (st : MultimodalReasoningState) (ops : List StateOp)
    (hv : validMarks st ops = true) (h : refsWellFormed st) :
    refsWellFormed (runOps st ops) := by
  induction ops generalizing st with
  | nil => exact h
  | cons op ops ih =>
    rw [runOps_cons]
    have hv2 : opMarkOk st op = true ∧ validMarks (applyOp st op) ops = true := by
      simpa [validMarks] using hv
    exact ih _ hv2.2 (refsWellFormed_applyOp st op hv2.1 h)

/-- C4 (amended): provided every `mark_visual_referenced` call of the
sequence passes a `turn_id` that exists at the moment of the call
(`1 ≤ turn_id ≤ len(turns)` — the code itself never checks this), every
reachable state satisfies the invariant: each turn id stored in any
visual or audio asset's `referenced_in_turns` names an existing turn.
`add_turn` maintains this unconditionally. -/
theorem claim_C4_amended_refs_valid (sid uid : String) (ops : List StateOp)
    (hv : validMarks (freshState sid uid) ops = true) :
    refsWellFormed (runOps (freshState sid uid) ops) :=
  refsWellFormed_runOps _ ops hv (refsWellFormed_fresh sid uid)

/-- An image turn, then a legitimate `mark_visual_referenced(0, 1)`. -/
def goodMarkOps : List StateOp :=
  [StateOp.addTurn { image := some "imgA" } [] none,
   StateOp.markVisualReferenced 0 1]

/-- Witness for C4 (amended): a sequence whose mark call passes the
existing turn id 1. -/
theorem claim_C4_witness :
    validMarks (freshState "s" "u") goodMarkOps = true
    ∧ refsWellFormed (runOps (freshState "s" "u") goodMarkOps) :=
  ⟨by decide, claim_C4_amended_refs_valid "s" "u" goodMarkOps (by decide)⟩

/-! ## Store (C9) -/

theorem statesLookup_append_of_none
    (l1 l2 : List (String × MultimodalReasoningState)) (k : String)
    (h : MultimodalStateManager.statesLookup l1 k = none) :
    MultimodalStateManager.statesLookup (l1 ++ l2) k
      = MultimodalStateManager.statesLookup l2 k := by
  induction l1 with
  | nil => rfl
  | cons p l1 ih =>
    cases p with
    | mk a b =>
      rw [List.cons_append]
      have hstep : ∀ rest, MultimodalStateManager.statesLookup ((a, b) :: rest) k
          = if a = k then some b else MultimodalStateManager.statesLookup rest k :=
        fun rest => rfl
      rw [hstep] at h
      rw [hstep]
      by_cases hk : a = k
      · rw [if_pos hk] at h
        cases h
      · rw [if_neg hk] at h ⊢
        exact ih h

/-- C9: `get_or_create_state` is idempotent — a known `session_id` returns
the stored state with the store untouched (turn history, pools and
pointers intact); an unknown `session_id` stores and returns a fresh state
(empty pools, empty turns) which the store then knows; and an immediate
second call returns the very same state and store, so repeated calls never
lose prior turns. -/
theorem claim_C9_get_or_create_idempotent (m : MultimodalStateManager)
    (sid uid : String) :
    (∀ st, m.find? sid = some st →
        (m.get_or_create_state sid uid).1 = st
        ∧ (m.get_or_create_state sid uid).2 = m)
    ∧ (m.find? sid = none →
        (m.get_or_create_state sid uid).1 = freshState sid uid
        ∧ (m.get_or_create_state sid uid).2.find? sid = some (freshState sid uid))
    ∧ (m.get_or_create_state sid uid).2.get_or_create_state sid uid
        = ((m.get_or_create_state sid uid).1, (m.get_or_create_state sid uid).2) := by
  cases hfind : m.find? sid with
  | some st0 =>
    refine ⟨?_, ?_, ?_⟩
    · intro st hst
      cases hst
      constructor <;> simp [MultimodalStateManager.get_or_create_state, hfind]
    · intro hnone
      cases hnone
    · simp [MultimodalStateManager.get_or_create_state, hfind]
  | none =>
    have hnew : ({ states := m.states ++ [(sid, freshState sid uid)] } :
        MultimodalStateManager).find? sid = some (freshState sid uid) := by
      unfold MultimodalStateManager.find?
      rw [statesLookup_append_of_none _ _ _ hfind]
      unfold MultimodalStateManager.statesLookup
      rw [if_pos rfl]
    refine ⟨?_, ?_, ?_⟩
    · intro st hst
      cases hst
    · intro _
      constructor
      · simp [MultimodalStateManager.get_or_create_state, hfind]
      · simp only [MultimodalStateManager.get_or_create_state, hfind]
        exact hnew
    · simp only [MultimodalStateManager.get_or_create_state, hfind]
      simp [hnew, MultimodalStateManager.get_or_create_state]

/-- Witness for C9: the empty store does not know `"sess"`; creating it
returns the fresh state and a store that knows it. -/
theorem claim_C9_witness :
    (({ states := [] } : MultimodalStateManager).find? "sess" = none)
    ∧ (({ states := [] } : MultimodalStateManager).get_or_create_state "sess" "user").1
        = freshState "sess" "user"
    ∧ (({ states := [] } : MultimodalStateManager).get_or_create_state "sess" "user").2.find?
        "sess" = some (freshState "sess" "user") :=
  ⟨by decide,
   ((claim_C9_get_or_create_idempotent { states := [] } "sess" "user").2.1 (by decide)).1,
   ((claim_C9_get_or_create_idempotent { states := [] } "sess" "user").2.1 (by decide)).2⟩

end MultimodalState
